import Mathlib

/-!
Verification of the Aadhaar document pipeline.

Shallow embedding of `src/aadhar_parser.py` and `src/textparser.py`.
Text is modelled as `List Char`; external capabilities (the text-completion
service, JSON decoding, OCR, raster rendering, table-grid rendering) are
parameters of the embedded functions. Definitions keep the source's names.
-/

namespace Aadhar

/-- Characters removed by Python's default `str.strip` (the ASCII whitespace
set; Python also strips some Unicode spaces, which never occur here). -/
def isPySpace (c : Char) : Bool :=
  c = ' ' || c = '\t' || c = '\n' || c = '\r' || c = '\x0b' || c = '\x0c'

/-- Python `s.strip()`: drop leading and trailing whitespace characters. -/
def pyStrip (s : List Char) : List Char :=
  ((s.dropWhile isPySpace).reverse.dropWhile isPySpace).reverse

/-- Number of non-whitespace characters of `s` (used only to state the
specification's wording of the PDF OCR threshold). -/
def nonWhitespaceCount (s : List Char) : Nat :=
  (s.filter (fun c => !isPySpace c)).length

/-- Decomposition of `s` around the first occurrence of `sep`:
`splitOnce sep s = some (b, a)` when `s = b ++ sep ++ a` and the occurrence
of `sep` after `b` is the leftmost one, `none` when `sep` does not occur in
`s`.  This is exactly what Python's `s.split(sep)` exposes through the
pieces `[0]` and `[1]` used by the source. -/
def splitOnce (sep : List Char) : List Char → Option (List Char × List Char)
  | [] => if sep.isPrefixOf [] then some ([], []) else none
  | c :: cs =>
    if sep.isPrefixOf (c :: cs) then some ([], (c :: cs).drop sep.length)
    else
      match splitOnce sep cs with
      | some (b, a) => some (c :: b, a)
      | none => none

/-- Python's `sep in s` substring test. -/
def containsSub (sep s : List Char) : Bool :=
  (splitOnce sep s).isSome

def fenceMark : List Char := "```".toList

def jsonFenceMark : List Char := "```json".toList

/-- Response sanitizer from `process_single_file`
(src/aadhar_parser.py lines 116-119):

  if "```json" in ai_response:
      ai_response = ai_response.split("```json")[1].split("```")[0]
  elif "```" in ai_response:
      ai_response = ai_response.split("```")[1].split("```")[0]

`s.split(sep)[1]` is the text strictly between the first and the second
non-overlapping occurrence of `sep` (all text after the first occurrence
when there is no second one), and `r.split(sep)[0]` is the text before the
first occurrence of `sep` in `r` (all of `r` when `sep` does not occur):
both compose to "text after the first `sep`, cut at the next fence", which
is what the nested `splitOnce` below computes. -/
def sanitize_response (s : List Char) : List Char :=
  match splitOnce jsonFenceMark s with
  | some (_, rest) =>
    match splitOnce fenceMark rest with
    | some (b, _) => b
    | none => rest
  | none =>
    match splitOnce fenceMark s with
    | some (_, rest) =>
      match splitOnce fenceMark rest with
      | some (b, _) => b
      | none => rest
    | none => s

example : sanitize_response ("pre ```json X``` post".toList) = " X".toList := by decide

example : sanitize_response ("a ``` Y ``` b".toList) = " Y ".toList := by decide

example : sanitize_response ("plain text".toList) = "plain text".toList := by decide

example : sanitize_response ("oops ```json tail".toList) = " tail".toList := by decide

/-- The pair `(b, a)` cuts `s` at the FIRST occurrence of `sep`:
`s = b ++ sep ++ a` and no occurrence of `sep` starts before position
`b.length`. -/
def isFirstSplit (sep s b a : List Char) : Prop :=
  s = b ++ sep ++ a ∧ ∀ i < b.length, sep.isPrefixOf (s.drop i) = false

instance (sep s b a : List Char) : Decidable (isFirstSplit sep s b a) := by
  unfold isFirstSplit
  infer_instance

theorem isPrefixOf_iff (sep : List Char) :
    ∀ s : List Char, sep.isPrefixOf s = true ↔ ∃ t, s = sep ++ t := by
  induction sep with
  | nil =>
    intro s
    simp [List.isPrefixOf]
  | cons c cs ih =>
    intro s
    cases s with
    | nil =>
      simp [List.isPrefixOf]
    | cons d ds =>
      constructor
      · intro h
        simp only [List.isPrefixOf, Bool.and_eq_true, beq_iff_eq] at h
        obtain ⟨t, ht⟩ := (ih ds).mp h.2
        exact ⟨t, by simp [h.1, ht]⟩
      · rintro ⟨t, ht⟩
        injection ht with h1 h2
        simp only [List.isPrefixOf, Bool.and_eq_true, beq_iff_eq]
        exact ⟨h1.symm, (ih ds).mpr ⟨t, h2⟩⟩

theorem isPrefixOf_false_of_ne_nil (sep : List Char) (hsep : sep ≠ []) :
    sep.isPrefixOf ([] : List Char) = false := by
  cases h : sep.isPrefixOf ([] : List Char) with
  | false => rfl
  | true =>
    obtain ⟨t, ht⟩ := (isPrefixOf_iff sep []).mp h
    cases sep with
    | nil => exact absurd rfl hsep
    | cons c cs => simp at ht

theorem splitOnce_none_iff (sep : List Char) (hsep : sep ≠ []) :
    ∀ s, splitOnce sep s = none ↔ ∀ i, sep.isPrefixOf (s.drop i) = false := by
  intro s
  induction s with
  | nil =>
    simp [splitOnce, isPrefixOf_false_of_ne_nil sep hsep]
  | cons c cs ih =>
    constructor
    · intro h i
      unfold splitOnce at h
      by_cases hp : sep.isPrefixOf (c :: cs) = true
      · simp [hp] at h
      · rw [Bool.not_eq_true] at hp
        simp only [hp, if_neg] at h
        cases i with
        | zero => simpa using hp
        | succ j =>
          have hnone : splitOnce sep cs = none := by
            cases hsc : splitOnce sep cs with
            | none => rfl
            | some p => rw [hsc] at h; simp at h
          simpa using (ih.mp hnone) j
    · intro h
      have h0 : sep.isPrefixOf (c :: cs) = false := by simpa using h 0
      have hrest : ∀ i, sep.isPrefixOf (cs.drop i) = false := by
        intro i
        simpa using h (i + 1)
      unfold splitOnce
      rw [h0]
      simp only [Bool.false_eq_true, if_false]
      rw [ih.mpr hrest]

theorem isFirstSplit_of_splitOnce (sep : List Char) (hsep : sep ≠ []) :
    ∀ s b a, splitOnce sep s = some (b, a) → isFirstSplit sep s b a := by
  intro s
  induction s with
  | nil =>
    intro b a h
    unfold splitOnce at h
    rw [isPrefixOf_false_of_ne_nil sep hsep] at h
    simp at h
  | cons c cs ih =>
    intro b a h
    unfold splitOnce at h
    by_cases hp : sep.isPrefixOf (c :: cs) = true
    · obtain ⟨t, ht⟩ := (isPrefixOf_iff sep (c :: cs)).mp hp
      rw [hp] at h
      simp only [if_true] at h
      injection h with h'
      injection h' with hb ha
      subst hb
      refine ⟨?_, ?_⟩
      · rw [ht, ← ha, ht, List.nil_append, List.drop_left]
      · intro i hi
        simp at hi
    · rw [Bool.not_eq_true] at hp
      simp only [hp, Bool.false_eq_true, if_false] at h
      cases hsc : splitOnce sep cs with
      | none => rw [hsc] at h; simp at h
      | some p =>
        rw [hsc] at h
        cases p with
        | mk b' a' =>
          simp only [Option.some.injEq, Prod.mk.injEq] at h
          obtain ⟨hb, ha⟩ := h
          subst hb; subst ha
          obtain ⟨heq, hfirst⟩ := ih b' a' hsc
          refine ⟨by simp [heq], ?_⟩
          intro i hi
          cases i with
          | zero => simpa using hp
          | succ j =>
            simp only [List.length_cons, Nat.succ_lt_succ_iff] at hi
            simpa using hfirst j hi

theorem splitOnce_of_isFirstSplit (sep : List Char) (hsep : sep ≠ []) :
    ∀ b s a, isFirstSplit sep s b a → splitOnce sep s = some (b, a) := by
  intro b
  induction b with
  | nil =>
    intro s a h
    obtain ⟨heq, _⟩ := h
    simp only [List.nil_append] at heq
    subst heq
    cases sep with
    | nil => exact absurd rfl hsep
    | cons e es =>
      show splitOnce (e :: es) (e :: (es ++ a)) = some ([], a)
      have hp : (e :: es).isPrefixOf (e :: (es ++ a)) = true :=
        (isPrefixOf_iff (e :: es) (e :: (es ++ a))).mpr ⟨a, by simp⟩
      unfold splitOnce
      rw [hp]
      simp [List.drop_left]
  | cons x b' ih =>
    intro s a h
    obtain ⟨heq, hfirst⟩ := h
    subst heq
    have h0 : sep.isPrefixOf (x :: (b' ++ sep ++ a)) = false := by
      simpa using hfirst 0 (by simp)
    have hrec : isFirstSplit sep (b' ++ sep ++ a) b' a := by
      refine ⟨rfl, ?_⟩
      intro i hi
      have := hfirst (i + 1) (by simpa using Nat.succ_lt_succ hi)
      simpa using this
    show splitOnce sep (x :: (b' ++ sep ++ a)) = some (x :: b', a)
    unfold splitOnce
    rw [h0]
    simp only [Bool.false_eq_true, if_false]
    rw [ih (b' ++ sep ++ a) a hrec]

theorem jsonFenceMark_decomp : jsonFenceMark = fenceMark ++ "json".toList := by decide

/-- A non-occurrence check only needs the positions inside the text: past the
end, the dropped list is empty and a non-empty pattern never matches. -/
theorem isPrefixOf_false_beyond (sep s : List Char) (hsep : sep ≠ [])
    (h : ∀ i < s.length, sep.isPrefixOf (s.drop i) = false) :
    ∀ i, sep.isPrefixOf (s.drop i) = false := by
  intro i
  by_cases hi : i < s.length
  · exact h i hi
  · rw [List.drop_eq_nil_of_le (Nat.le_of_not_lt hi)]
    exact isPrefixOf_false_of_ne_nil sep hsep

theorem no_jsonFence_of_no_fence (s : List Char)
    (h : ∀ i, fenceMark.isPrefixOf (s.drop i) = false) :
    ∀ i, jsonFenceMark.isPrefixOf (s.drop i) = false := by
  intro i
  cases hj : jsonFenceMark.isPrefixOf (s.drop i) with
  | false => rfl
  | true =>
    obtain ⟨t, ht⟩ := (isPrefixOf_iff _ _).mp hj
    have hf : fenceMark.isPrefixOf (s.drop i) = true :=
      (isPrefixOf_iff _ _).mpr
        ⟨"json".toList ++ t, by rw [ht, jsonFenceMark_decomp, List.append_assoc]⟩
    rw [h i] at hf
    exact absurd hf (by simp)

/-- C6: the Response Sanitizer extracts exactly the content between the
first ```json marker and the next ``` marker when a JSON-marked fence is
present; otherwise the content between the first pair of ``` markers when
any fence is present; otherwise it returns the text unchanged — hence it is
the identity, and idempotent, on fence-free text. -/
theorem sanitize_response_spec (s : List Char) :
    (∀ b r m t, isFirstSplit jsonFenceMark s b r → isFirstSplit fenceMark r m t →
       sanitize_response s = m)
  ∧ ((∀ i < s.length, jsonFenceMark.isPrefixOf (s.drop i) = false) →
     ∀ b r m t, isFirstSplit fenceMark s b r → isFirstSplit fenceMark r m t →
       sanitize_response s = m)
  ∧ ((∀ i < s.length, fenceMark.isPrefixOf (s.drop i) = false) →
     sanitize_response s = s ∧ sanitize_response (sanitize_response s) = sanitize_response s) := by
  refine ⟨?_, ?_, ?_⟩
  · intro b r m t h1 h2
    have e1 := splitOnce_of_isFirstSplit jsonFenceMark (by decide) b s r h1
    have e2 := splitOnce_of_isFirstSplit fenceMark (by decide) m r t h2
    simp only [sanitize_response, e1, e2]
  · intro hb b r m t h1 h2
    have e0 : splitOnce jsonFenceMark s = none :=
      (splitOnce_none_iff jsonFenceMark (by decide) s).mpr
        (isPrefixOf_false_beyond jsonFenceMark s (by decide) hb)
    have e1 := splitOnce_of_isFirstSplit fenceMark (by decide) b s r h1
    have e2 := splitOnce_of_isFirstSplit fenceMark (by decide) m r t h2
    simp only [sanitize_response, e0, e1, e2]
  · intro hb
    have hnone := isPrefixOf_false_beyond fenceMark s (by decide) hb
    have hjson := no_jsonFence_of_no_fence s hnone
    have e0 : splitOnce jsonFenceMark s = none :=
      (splitOnce_none_iff jsonFenceMark (by decide) s).mpr hjson
    have e1 : splitOnce fenceMark s = none :=
      (splitOnce_none_iff fenceMark (by decide) s).mpr hnone
    have hid : sanitize_response s = s := by
      simp only [sanitize_response, e0, e1]
    exact ⟨hid, by rw [hid, hid]⟩

/-- Witness for C6 at a concrete fenced completion. -/
theorem sanitize_response_spec_witness :
    sanitize_response ("say ```json INNER``` done".toList) = " INNER".toList :=
  (sanitize_response_spec ("say ```json INNER``` done".toList)).1
    ("say ".toList) (" INNER``` done".toList) (" INNER".toList) (" done".toList)
    (by decide) (by decide)

/-- C9: an opening fence marker with no subsequent closing ``` marker makes
the sanitizer return all text after the first opening marker (it neither
raises nor passes the text through unchanged). -/
theorem sanitize_unclosed_fence (s : List Char) :
    (∀ b r, isFirstSplit jsonFenceMark s b r →
       (∀ i < r.length, fenceMark.isPrefixOf (r.drop i) = false) →
       sanitize_response s = r)
  ∧ ((∀ i < s.length, jsonFenceMark.isPrefixOf (s.drop i) = false) →
     ∀ b r, isFirstSplit fenceMark s b r →
       (∀ i < r.length, fenceMark.isPrefixOf (r.drop i) = false) →
       sanitize_response s = r) := by
  constructor
  · intro b r h1 h2
    have e1 := splitOnce_of_isFirstSplit jsonFenceMark (by decide) b s r h1
    have e2 : splitOnce fenceMark r = none :=
      (splitOnce_none_iff fenceMark (by decide) r).mpr
        (isPrefixOf_false_beyond fenceMark r (by decide) h2)
    simp only [sanitize_response, e1, e2]
  · intro hb b r h1 h2
    have e0 : splitOnce jsonFenceMark s = none :=
      (splitOnce_none_iff jsonFenceMark (by decide) s).mpr
        (isPrefixOf_false_beyond jsonFenceMark s (by decide) hb)
    have e1 := splitOnce_of_isFirstSplit fenceMark (by decide) b s r h1
    have e2 : splitOnce fenceMark r = none :=
      (splitOnce_none_iff fenceMark (by decide) r).mpr
        (isPrefixOf_false_beyond fenceMark r (by decide) h2)
    simp only [sanitize_response, e0, e1, e2]

/-- Witness for C9 at a completion whose JSON fence is never closed. -/
theorem sanitize_unclosed_fence_witness :
    sanitize_response ("note ```json rest".toList) = " rest".toList :=
  (sanitize_unclosed_fence ("note ```json rest".toList)).1
    ("note ".toList) (" rest".toList) (by decide) (by decide)

/-- JSON values as produced by `json.loads`. -/
inductive JsonVal where
  | null
  | boolean (b : Bool)
  | number (n : Int)
  | string (s : List Char)
  | array (elems : List JsonVal)
  | object (fields : List (List Char × JsonVal))

/-- A parsed JSON mapping: keys with values. `json.loads` yields unique keys
(later duplicates overwrite earlier ones), so first-match lookup models
Python dict access. -/
abbrev JsonObj := List (List Char × JsonVal)

/-- Python `data[k]` / `k in data` on a dict. -/
def lookupField (data : JsonObj) (k : List Char) : Option JsonVal :=
  match data with
  | [] => none
  | (k', v) :: rest => if k' = k then some v else lookupField rest k

/-- Python `isinstance(v, dict)` on a JSON value. -/
def isDict : JsonVal → Bool
  | .object _ => true
  | _ => false

/-- The required_fields list of validate_data (src/aadhar_parser.py line 146):
note the source spells the first key `aadhar_number`. -/
def required_fields : List (List Char) :=
  ["aadhar_number".toList, "name".toList, "date_of_birth".toList,
   "gender".toList]

def addressKey : List Char := "address".toList

/-- validate_data (src/aadhar_parser.py lines 144-157): every required field
must be present as a key (the loop returns False on the first absent one),
and if an `address` key is present its value must satisfy
`isinstance(data['address'], dict)`. -/
def validate_data (data : JsonObj) : Bool :=
  if required_fields.all (fun f => (lookupField data f).isSome) then
    match lookupField data addressKey with
    | some v => isDict v
    | none => true
  else false

example :
    validate_data
      [("aadhar_number".toList, .string ("1234 5678 9012".toList)),
       ("name".toList, .string ("A".toList)),
       ("date_of_birth".toList, .string ("01/01/1990".toList)),
       ("gender".toList, .string ("Male".toList))] = true := by decide

/-- A record carrying every key the validator's loop requires (null-valued)
plus `address: null`. -/
def recNullAddress : JsonObj :=
  [("aadhar_number".toList, .null), ("name".toList, .null),
   ("date_of_birth".toList, .null), ("gender".toList, .null),
   (addressKey, .null)]

/-- C1 counterexample: the claim predicts that a record with `address: null`
is accepted, but `isinstance(None, dict)` is false, so validate_data
rejects it even though every required key is present. -/
theorem validate_null_address_rejected :
    required_fields.all (fun f => (lookupField recNullAddress f).isSome) = true
    ∧ lookupField recNullAddress addressKey = some .null
    ∧ validate_data recNullAddress = false :=
  ⟨by decide, rfl, by decide⟩

/-- C1 (amended): with every required key present, the validator accepts a
record exactly when its `address` key is absent or maps to a dict; any
present non-dict `address` value — a list, and also null — is rejected. -/
theorem validate_address_check (data : JsonObj) :
    (∀ v, lookupField data addressKey = some v → isDict v = false →
       validate_data data = false)
  ∧ (∀ elems, lookupField data addressKey = some (.array elems) →
       validate_data data = false)
  ∧ (lookupField data addressKey = some .null → validate_data data = false)
  ∧ (required_fields.all (fun f => (lookupField data f).isSome) = true →
       (lookupField data addressKey = none → validate_data data = true)
     ∧ (∀ fields, lookupField data addressKey = some (.object fields) →
          validate_data data = true)) := by
  refine ⟨?_, ?_, ?_, ?_⟩
  · intro v hv hd
    unfold validate_data
    rw [hv]
    by_cases hreq : required_fields.all (fun f => (lookupField data f).isSome) = true
    · simp [hreq, hd]
    · simp only [Bool.not_eq_true] at hreq
      simp [hreq]
  · intro elems hv
    unfold validate_data
    rw [hv]
    by_cases hreq : required_fields.all (fun f => (lookupField data f).isSome) = true
    · simp [hreq, isDict]
    · simp only [Bool.not_eq_true] at hreq
      simp [hreq]
  · intro hv
    unfold validate_data
    rw [hv]
    by_cases hreq : required_fields.all (fun f => (lookupField data f).isSome) = true
    · simp [hreq, isDict]
    · simp only [Bool.not_eq_true] at hreq
      simp [hreq]
  · intro hreq
    constructor
    · intro hnone
      unfold validate_data
      rw [hnone, hreq]
      simp
    · intro fields hv
      unfold validate_data
      rw [hv, hreq]
      simp [isDict]

/-- Witness for the amended C1: the null-address record is rejected via the
non-dict branch, and the same record with the address key removed is
accepted. -/
theorem validate_address_check_witness :
    validate_data recNullAddress = false
    ∧ validate_data (recNullAddress.take 4) = true :=
  ⟨(validate_address_check recNullAddress).2.2.1 rfl,
   ((validate_address_check (recNullAddress.take 4)).2.2.2 (by decide)).1 rfl⟩

/-- A record using the specification's key spelling `aadhaar_number` for all
four required fields, with no `address` key. -/
def recSpecSpelling : JsonObj :=
  [("aadhaar_number".toList, .null), ("name".toList, .null),
   ("date_of_birth".toList, .null), ("gender".toList, .null)]

/-- C5 counterexample: the claim's required-key set names `aadhaar_number`,
but the validator requires the key `aadhar_number`; a record with all four
of the claim's keys present (null-valued) and no `address` key is rejected
by the code. -/
theorem validate_aadhaar_spelling_rejected :
    lookupField recSpecSpelling ("aadhaar_number".toList) = some .null
    ∧ lookupField recSpecSpelling ("name".toList) = some .null
    ∧ lookupField recSpecSpelling ("date_of_birth".toList) = some .null
    ∧ lookupField recSpecSpelling ("gender".toList) = some .null
    ∧ lookupField recSpecSpelling addressKey = none
    ∧ validate_data recSpecSpelling = false :=
  ⟨rfl, rfl, rfl, rfl, rfl, by decide⟩

/-- C5 (amended): the validator rejects a record missing any of the keys
aadhar_number, name, date_of_birth, gender (the source's spelling of the
first key has a single `a` in the second syllable), and accepts a record in
which all four are present — even null-valued — and no `address` key
exists. -/
theorem validate_required_fields (data : JsonObj) :
    (∀ f, f ∈ required_fields → lookupField data f = none →
       validate_data data = false)
  ∧ (required_fields.all (fun f => (lookupField data f).isSome) = true →
     lookupField data addressKey = none → validate_data data = true) := by
  constructor
  · intro f hf hnone
    unfold validate_data
    have : required_fields.all (fun g => (lookupField data g).isSome) = false := by
      rw [List.all_eq_false]
      exact ⟨f, hf, by rw [hnone]; simp⟩
    simp [this]
  · intro hreq hnone
    unfold validate_data
    rw [hreq, hnone]
    simp

/-- Witness for the amended C5: a record missing `gender` is rejected; the
all-null record with the source's key names and no address is accepted. -/
theorem validate_required_fields_witness :
    validate_data (recNullAddress.take 3) = false
    ∧ validate_data (recNullAddress.take 4) = true :=
  ⟨(validate_required_fields (recNullAddress.take 3)).1 ("gender".toList)
      (by decide) rfl,
   (validate_required_fields (recNullAddress.take 4)).2 (by decide) rfl⟩

/-- Disposition of one text artifact in process_single_file: `success d`
models returning True after writing `d` to the output JSON artifact;
`failure e` models appending `e` to stats['errors'], returning False, and
writing no artifact. -/
inductive ProcOutcome where
  | success (data : JsonObj)
  | failure (err : List Char)

def aiFailedMsg (name : List Char) : List Char :=
  "AI failed to process ".toList ++ name

def invalidJsonMsg (name : List Char) : List Char :=
  "Invalid JSON from ".toList ++ name

def invalidDataMsg (name : List Char) : List Char :=
  "Invalid data structure from ".toList ++ name

/-- process_single_file (src/aadhar_parser.py lines 101-142), for an
artifact whose read succeeded. `name` is `file_path.name`; `ai_response` is
the value of call_gemini_api (`none` = null); `parseJson` is the external
`json.loads` capability, `none` modelling JSONDecodeError. Python's
`if not ai_response:` is true both for None and for the empty string. A
completion whose JSON parses to a non-mapping value would reach the generic
exception handler instead (outside the claims), so `parseJson` yields
mappings. -/
def process_single_file (name : List Char) (ai_response : Option (List Char))
    (parseJson : List Char → Option JsonObj) : ProcOutcome :=
  match ai_response with
  | none => .failure (aiFailedMsg name)
  | some t =>
    if t = [] then .failure (aiFailedMsg name)
    else
      match parseJson (sanitize_response t) with
      | none => .failure (invalidJsonMsg name)
      | some data =>
        if validate_data data then .success data
        else .failure (invalidDataMsg name)

/-- The `json.loads` behaviour on the empty string: it raises
JSONDecodeError (the empty string is not a JSON document). Used only at
that one point by the counterexample. -/
def parseRejectsEmpty : List Char → Option JsonObj := fun _ => none

/-- C7 counterexample: an empty (non-null) completion sanitizes to an
unparsable empty string, yet the recorded error is "AI failed to process",
not "Invalid JSON from", because `if not ai_response:` also catches the
empty string. -/
theorem empty_response_counted_as_ai_failure :
    parseRejectsEmpty (sanitize_response []) = none
    ∧ process_single_file ("a.txt".toList) (some []) parseRejectsEmpty
        = .failure (aiFailedMsg ("a.txt".toList))
    ∧ aiFailedMsg ("a.txt".toList) ≠ invalidJsonMsg ("a.txt".toList) :=
  ⟨rfl, rfl, by decide⟩

/-- C7 (amended): a null OR EMPTY client result records "AI failed to
process <name>"; a non-empty response whose sanitized form fails to parse
records "Invalid JSON from <name>"; a parsed record failing validation
records "Invalid data structure from <name>"; in each case processing stops
with no output artifact, while a valid record is persisted and reported
successful. -/
theorem process_single_file_outcomes (name : List Char)
    (parseJson : List Char → Option JsonObj) :
    (process_single_file name none parseJson = .failure (aiFailedMsg name))
  ∧ (process_single_file name (some []) parseJson = .failure (aiFailedMsg name))
  ∧ (∀ t, t ≠ [] → parseJson (sanitize_response t) = none →
       process_single_file name (some t) parseJson
         = .failure (invalidJsonMsg name))
  ∧ (∀ t d, t ≠ [] → parseJson (sanitize_response t) = some d →
       validate_data d = false →
       process_single_file name (some t) parseJson
         = .failure (invalidDataMsg name))
  ∧ (∀ t d, t ≠ [] → parseJson (sanitize_response t) = some d →
       validate_data d = true →
       process_single_file name (some t) parseJson = .success d) := by
  refine ⟨rfl, rfl, ?_, ?_, ?_⟩
  · intro t ht hp
    simp only [process_single_file, if_neg ht, hp]
  · intro t d ht hp hv
    simp only [process_single_file, if_neg ht, hp, hv]
    simp
  · intro t d ht hp hv
    simp only [process_single_file, if_neg ht, hp, hv]
    simp

/-- The concrete `json.loads` slice used by the C7 witness: it decodes the
sanitized sample completion to the all-null record and nothing else. -/
def parseSample : List Char → Option JsonObj := fun s =>
  if s = "sample".toList then some (recNullAddress.take 4) else none

/-- Witness for the amended C7: a fence-free completion that parses to a
valid record is persisted, and prose that fails to parse records the
Invalid JSON error. -/
theorem process_single_file_outcomes_witness :
    process_single_file ("a.txt".toList) (some ("sample".toList)) parseSample
      = .success (recNullAddress.take 4)
    ∧ process_single_file ("a.txt".toList) (some ("prose".toList)) parseSample
      = .failure (invalidJsonMsg ("a.txt".toList)) :=
  ⟨(process_single_file_outcomes ("a.txt".toList) parseSample).2.2.2.2
      ("sample".toList) (recNullAddress.take 4) (by decide) rfl (by decide),
   (process_single_file_outcomes ("a.txt".toList) parseSample).2.2.1
      ("prose".toList) (by decide) rfl⟩

/-- Result of one model.generate_content invocation: the raw completion
text, or the exception message `str(e)`. -/
inductive GenOutcome where
  | success (text : List Char)
  | failure (msg : List Char)
deriving DecidableEq

/-- The quota classification of call_gemini_api (line 93):
`"quota" in str(e).lower() or "limit" in str(e).lower()`. Python's
`str.lower` also folds non-ASCII letters; `Char.toLower` covers the ASCII
letters, the only ones these two patterns contain. -/
def isQuotaMessage (msg : List Char) : Bool :=
  containsSub ("quota".toList) (msg.map Char.toLower)
  || containsSub ("limit".toList) (msg.map Char.toLower)

/-- The mutable fields of AadharConverter the client uses: the credential
pool and the active-key cursor (src/aadhar_parser.py lines 15-18). -/
structure ConverterState where
  api_keys : List (List Char)
  current_key_index : Nat
deriving DecidableEq

/-- switch_api_key (src/aadhar_parser.py lines 66-69). -/
def switch_api_key (st : ConverterState) : ConverterState :=
  { st with current_key_index := (st.current_key_index + 1) % st.api_keys.length }

/-- One loop iteration as observed from outside: the credential index the
attempt ran under, its outcome, and the `time.sleep` the iteration performed
after the outcome (2 after a non-quota failure, else 0). -/
structure AttemptRec where
  keyIndex : Nat
  outcome : GenOutcome
  sleepAfter : Nat
deriving DecidableEq

/-- The sleep the loop body performs after an outcome. -/
def sleepFor : GenOutcome → Nat
  | .success _ => 0
  | .failure m => if isQuotaMessage m then 0 else 2

/-- The retry loop of call_gemini_api (src/aadhar_parser.py lines 76-98).
`gen i k` is the generate_content capability's outcome at attempt number
`i` under credential index `k` (the key content is never inspected; its index
matters). `fuel` counts the loop iterations remaining, starting at
`len(self.api_keys)`. Returns the value returned to the caller, the trace
of attempts made, and the state left behind. -/
def attemptLoop (gen : Nat → Nat → GenOutcome) :
    Nat → Nat → ConverterState →
    Option (List Char) × List AttemptRec × ConverterState
  | _, 0, st => (none, [], st)
  | i, fuel + 1, st =>
    let k := st.current_key_index
    match gen i k with
    | .success t => (some t, [⟨k, .success t, 0⟩], st)
    | .failure m =>
      if isQuotaMessage m then
        let r := attemptLoop gen (i + 1) fuel (switch_api_key st)
        (r.1, ⟨k, .failure m, 0⟩ :: r.2.1, r.2.2)
      else
        let r := attemptLoop gen (i + 1) fuel st
        (r.1, ⟨k, .failure m, 2⟩ :: r.2.1, r.2.2)

/-- call_gemini_api (src/aadhar_parser.py lines 71-99): up to
`len(self.api_keys)` attempts. -/
def call_gemini_api (gen : Nat → Nat → GenOutcome) (st : ConverterState) :
    Option (List Char) × List AttemptRec × ConverterState :=
  attemptLoop gen 0 st.api_keys.length st

/-- Is this outcome a success. -/
def isSuccess : GenOutcome → Bool
  | .success _ => true
  | .failure _ => false

/-- Relation between an attempt and the next one: after a quota failure the
next attempt runs under the cyclically next credential with no delay; after
any other failure the loop sleeps 2 and retries under the same credential.
A successful attempt is never followed by another one. -/
def rotationStep (poolSize : Nat) (a b : AttemptRec) : Prop :=
  match a.outcome with
  | .success _ => False
  | .failure m =>
    if isQuotaMessage m then
      b.keyIndex = (a.keyIndex + 1) % poolSize ∧ a.sleepAfter = 0
    else
      b.keyIndex = a.keyIndex ∧ a.sleepAfter = 2

/-- Invariant bundle for the retry loop, proved by induction on the fuel. -/
theorem attemptLoop_spec (gen : Nat → Nat → GenOutcome) (K : Nat) :
    ∀ fuel i st, st.api_keys.length = K →
      ((attemptLoop gen i fuel st).2.1.length ≤ fuel)
    ∧ ((attemptLoop gen i fuel st).1 = none →
         (attemptLoop gen i fuel st).2.1.length = fuel
       ∧ ∀ r ∈ (attemptLoop gen i fuel st).2.1, isSuccess r.outcome = false)
    ∧ (∀ t, (attemptLoop gen i fuel st).1 = some t →
         (∃ r, (attemptLoop gen i fuel st).2.1.getLast? = some r
            ∧ r.outcome = .success t ∧ r.sleepAfter = 0)
       ∧ ∀ x ∈ (attemptLoop gen i fuel st).2.1.dropLast,
           isSuccess x.outcome = false)
    ∧ List.Chain' (rotationStep K) (attemptLoop gen i fuel st).2.1
    ∧ (∀ r, (attemptLoop gen i fuel st).2.1.head? = some r →
         r.keyIndex = st.current_key_index)
    ∧ (∀ r ∈ (attemptLoop gen i fuel st).2.1,
         r.sleepAfter = sleepFor r.outcome) := by
  intro fuel
  induction fuel with
  | zero =>
    intro i st hK
    simp [attemptLoop]
  | succ n ih =>
    intro i st hK
    cases hgen : gen i st.current_key_index with
    | success t =>
      have hstep : attemptLoop gen i (n + 1) st
          = (some t, [⟨st.current_key_index, .success t, 0⟩], st) := by
        simp [attemptLoop, hgen]
      rw [hstep]
      refine ⟨by simp, by simp, ?_, by simp, by simp, by simp [sleepFor]⟩
      intro u hu
      simp only [Option.some.injEq] at hu
      subst hu
      exact ⟨⟨⟨st.current_key_index, .success t, 0⟩, by simp, rfl, rfl⟩, by simp⟩
    | failure m =>
      by_cases hq : isQuotaMessage m = true
      · have hstep : attemptLoop gen i (n + 1) st
            = ((attemptLoop gen (i + 1) n (switch_api_key st)).1,
               ⟨st.current_key_index, .failure m, 0⟩
                 :: (attemptLoop gen (i + 1) n (switch_api_key st)).2.1,
               (attemptLoop gen (i + 1) n (switch_api_key st)).2.2) := by
          simp [attemptLoop, hgen, hq]
        obtain ⟨ih1, ih2, ih3, ih4, ih5, ih6⟩ := ih (i + 1) (switch_api_key st) hK
        rw [hstep]
        refine ⟨?_, ?_, ?_, ?_, ?_, ?_⟩
        · simpa using Nat.succ_le_succ ih1
        · intro h
          obtain ⟨hlen, hall⟩ := ih2 h
          refine ⟨by simp [hlen], ?_⟩
          intro x hx
          rcases List.mem_cons.mp hx with hx | hx
          · subst hx; simp [isSuccess]
          · exact hall x hx
        · intro t ht
          obtain ⟨⟨last, hlast, hout, hsleep⟩, hdrop⟩ := ih3 t ht
          cases htr : (attemptLoop gen (i + 1) n (switch_api_key st)).2.1 with
          | nil => rw [htr] at hlast; simp at hlast
          | cons y ys =>
            rw [htr] at hlast hdrop
            refine ⟨⟨last, ?_, hout, hsleep⟩, ?_⟩
            · rw [List.getLast?_cons_cons]
              exact hlast
            · intro x hx
              simp only [List.dropLast] at hx
              rcases List.mem_cons.mp hx with hx | hx
              · subst hx; simp [isSuccess]
              · exact hdrop x (by simpa [List.dropLast] using hx)
        · rw [List.chain'_cons']
          refine ⟨?_, ih4⟩
          intro b hb
          have hkey := ih5 b (Option.mem_def.mp hb)
          have hkey2 : b.keyIndex = (st.current_key_index + 1) % K := by
            rw [hkey]
            simp [switch_api_key, hK]
          simp [rotationStep, hq, hkey2]
        · intro r h
          simp only [List.head?_cons, Option.some.injEq] at h
          subst h
          rfl
        · intro r hr
          rcases List.mem_cons.mp hr with hr | hr
          · subst hr; simp [sleepFor, hq]
          · exact ih6 r hr
      · have hstep : attemptLoop gen i (n + 1) st
            = ((attemptLoop gen (i + 1) n st).1,
               ⟨st.current_key_index, .failure m, 2⟩
                 :: (attemptLoop gen (i + 1) n st).2.1,
               (attemptLoop gen (i + 1) n st).2.2) := by
          simp [attemptLoop, hgen, hq]
        obtain ⟨ih1, ih2, ih3, ih4, ih5, ih6⟩ := ih (i + 1) st hK
        rw [hstep]
        refine ⟨?_, ?_, ?_, ?_, ?_, ?_⟩
        · simpa using Nat.succ_le_succ ih1
        · intro h
          obtain ⟨hlen, hall⟩ := ih2 h
          refine ⟨by simp [hlen], ?_⟩
          intro x hx
          rcases List.mem_cons.mp hx with hx | hx
          · subst hx; simp [isSuccess]
          · exact hall x hx
        · intro t ht
          obtain ⟨⟨last, hlast, hout, hsleep⟩, hdrop⟩ := ih3 t ht
          cases htr : (attemptLoop gen (i + 1) n st).2.1 with
          | nil => rw [htr] at hlast; simp at hlast
          | cons y ys =>
            rw [htr] at hlast hdrop
            refine ⟨⟨last, ?_, hout, hsleep⟩, ?_⟩
            · rw [List.getLast?_cons_cons]
              exact hlast
            · intro x hx
              simp only [List.dropLast] at hx
              rcases List.mem_cons.mp hx with hx | hx
              · subst hx; simp [isSuccess]
              · exact hdrop x (by simpa [List.dropLast] using hx)
        · rw [List.chain'_cons']
          refine ⟨?_, ih4⟩
          intro b hb
          have hkey := ih5 b (Option.mem_def.mp hb)
          simp [rotationStep, hq, hkey]
        · intro r h
          simp only [List.head?_cons, Option.some.injEq] at h
          subst h
          rfl
        · intro r hr
          rcases List.mem_cons.mp hr with hr | hr
          · subst hr; simp [sleepFor, hq]
          · exact ih6 r hr

/-- C2: for a non-empty credential pool the client makes at most
`len(pool)` attempts; a successful attempt ends the trace and returns its
raw text; a quota/rate-limit failure rotates to the next credential and
retries with no delay while any other failure sleeps 2 and retries with the
same credential (the consecutive-attempt relation `rotationStep`); and the
client returns null exactly when every attempt failed, after a full-length
trace, rather than raising. -/
theorem call_gemini_api_contract (gen : Nat → Nat → GenOutcome)
    (st : ConverterState) (_hpool : st.api_keys ≠ []) :
    ((call_gemini_api gen st).2.1.length ≤ st.api_keys.length)
  ∧ (∀ t, (call_gemini_api gen st).1 = some t →
       (∃ r, (call_gemini_api gen st).2.1.getLast? = some r
          ∧ r.outcome = .success t ∧ r.sleepAfter = 0)
     ∧ ∀ x ∈ (call_gemini_api gen st).2.1.dropLast, isSuccess x.outcome = false)
  ∧ List.Chain' (rotationStep st.api_keys.length) (call_gemini_api gen st).2.1
  ∧ (∀ r ∈ (call_gemini_api gen st).2.1, r.sleepAfter = sleepFor r.outcome)
  ∧ ((call_gemini_api gen st).1 = none →
       (call_gemini_api gen st).2.1.length = st.api_keys.length
     ∧ ∀ r ∈ (call_gemini_api gen st).2.1, isSuccess r.outcome = false)
  ∧ ((∀ r ∈ (call_gemini_api gen st).2.1, isSuccess r.outcome = false) →
       (call_gemini_api gen st).1 = none) := by
  obtain ⟨h1, h2, h3, h4, h5, h6⟩ :=
    attemptLoop_spec gen st.api_keys.length st.api_keys.length 0 st rfl
  refine ⟨h1, h3, h4, h6, h2, ?_⟩
  intro hall
  cases hres : (call_gemini_api gen st).1 with
  | none => rfl
  | some t =>
    obtain ⟨⟨r, hlast, hout, _⟩, _⟩ := h3 t hres
    have hmem : r ∈ (call_gemini_api gen st).2.1 :=
      List.mem_of_getLast?_eq_some hlast
    have hfail := hall r hmem
    rw [hout] at hfail
    simp [isSuccess] at hfail

/-- A generate capability that hits quota on the first attempt and succeeds
on the second. -/
def genDemo : Nat → Nat → GenOutcome := fun i _ =>
  if i = 0 then .failure ("Quota exceeded".toList) else .success ("OUT".toList)

def poolTwo : ConverterState := ⟨["k1".toList, "k2".toList], 0⟩

/-- Witness for C2: a two-key pool where the first attempt hits quota and
the second succeeds returns the completion with two attempts. -/
theorem call_gemini_api_contract_witness :
    poolTwo.api_keys ≠ []
    ∧ (call_gemini_api genDemo poolTwo).1 = some ("OUT".toList)
    ∧ (call_gemini_api genDemo poolTwo).2.1.length ≤ poolTwo.api_keys.length :=
  ⟨by decide, by decide, (call_gemini_api_contract genDemo poolTwo (by decide)).1⟩

/-- Key indices recorded by the loop when every attempt fails with a quota
message: starting cursor, then each cyclic successor. -/
theorem attemptLoop_keys_quota (gen : Nat → Nat → GenOutcome)
    (hq : ∀ i k, ∃ m, gen i k = .failure m ∧ isQuotaMessage m = true) (K : Nat) :
    ∀ fuel i st, st.api_keys.length = K → st.current_key_index < K →
      (attemptLoop gen i fuel st).2.1.map (fun r => r.keyIndex)
        = (List.range fuel).map (fun j => (st.current_key_index + j) % K) := by
  intro fuel
  induction fuel with
  | zero =>
    intro i st hK hc
    simp [attemptLoop]
  | succ n ih =>
    intro i st hK hc
    obtain ⟨m, hm, hqm⟩ := hq i st.current_key_index
    have hstep : attemptLoop gen i (n + 1) st
        = ((attemptLoop gen (i + 1) n (switch_api_key st)).1,
           ⟨st.current_key_index, .failure m, 0⟩
             :: (attemptLoop gen (i + 1) n (switch_api_key st)).2.1,
           (attemptLoop gen (i + 1) n (switch_api_key st)).2.2) := by
      simp [attemptLoop, hm, hqm]
    have hc' : (switch_api_key st).current_key_index < K := by
      simp only [switch_api_key, hK]
      exact Nat.mod_lt _ (Nat.lt_of_le_of_lt (Nat.zero_le _) hc)
    have hcur : (switch_api_key st).current_key_index
        = (st.current_key_index + 1) % K := by
      simp [switch_api_key, hK]
    have hrec := ih (i + 1) (switch_api_key st) hK hc'
    rw [hcur] at hrec
    rw [hstep]
    simp only [List.map_cons]
    rw [hrec, List.range_succ_eq_map]
    simp only [List.map_cons, List.map_map]
    refine List.cons_eq_cons.mpr ⟨?_, ?_⟩
    · rw [Nat.add_zero, Nat.mod_eq_of_lt hc]
    · apply List.map_congr_left
      intro j _
      simp only [Function.comp_apply]
      rw [Nat.mod_add_mod]
      congr 1
      omega

/-- Cyclic successors of a valid cursor enumerate every index of the pool
exactly once. -/
theorem keys_range_nodup (K c : Nat) (hc : c < K) :
    ((List.range K).map (fun j => (c + j) % K)).Nodup
    ∧ ∀ k < K, k ∈ (List.range K).map (fun j => (c + j) % K) := by
  constructor
  · apply List.Nodup.map_on
    · intro x hx y hy hxy
      simp only [List.mem_range] at hx hy
      have hmx : (c + x) % K = (c + y) % K := hxy
      have hcancel : x % K = y % K := Nat.ModEq.add_left_cancel' c hmx
      rwa [Nat.mod_eq_of_lt hx, Nat.mod_eq_of_lt hy] at hcancel
    · exact List.nodup_range K
  · intro k hk
    simp only [List.mem_map, List.mem_range]
    by_cases hck : c ≤ k
    · refine ⟨k - c, by omega, ?_⟩
      rw [Nat.add_sub_cancel' hck, Nat.mod_eq_of_lt hk]
    · refine ⟨K + k - c, by omega, ?_⟩
      have harith : c + (K + k - c) = K + k := by omega
      rw [harith, Nat.add_mod_left, Nat.mod_eq_of_lt hk]

/-- Credential indices visited by one call, in attempt order. -/
def visitedKeys (gen : Nat → Nat → GenOutcome) (st : ConverterState) : List Nat :=
  (call_gemini_api gen st).2.1.map (fun r => r.keyIndex)

/-- C3: rotation always leaves the cursor inside the pool for every pool of
size at least one and every starting cursor; it wraps from the last index
to 0; and K consecutive quota failures visit each of the K credentials
exactly once (the visited indices form a duplicate-free list of length K
covering every index) before any repeats. -/
theorem rotation_invariant :
    (∀ st : ConverterState, st.api_keys ≠ [] →
       (switch_api_key st).current_key_index < st.api_keys.length)
  ∧ (∀ st : ConverterState, st.current_key_index + 1 = st.api_keys.length →
       (switch_api_key st).current_key_index = 0)
  ∧ (∀ gen st,
       (∀ i k, ∃ m, gen i k = .failure m ∧ isQuotaMessage m = true) →
       st.current_key_index < st.api_keys.length →
       (visitedKeys gen st).length = st.api_keys.length
     ∧ (visitedKeys gen st).Nodup
     ∧ ∀ k < st.api_keys.length, k ∈ visitedKeys gen st) := by
  refine ⟨?_, ?_, ?_⟩
  · intro st hne
    simp only [switch_api_key]
    exact Nat.mod_lt _ (List.length_pos.mpr hne)
  · intro st h
    simp only [switch_api_key, ← h, Nat.mod_self]
  · intro gen st hq hc
    have hvk : visitedKeys gen st
        = (List.range st.api_keys.length).map
            (fun j => (st.current_key_index + j) % st.api_keys.length) :=
      attemptLoop_keys_quota gen hq st.api_keys.length st.api_keys.length 0 st
        rfl hc
    obtain ⟨hnd, hmem⟩ :=
      keys_range_nodup st.api_keys.length st.current_key_index hc
    refine ⟨?_, ?_, ?_⟩
    · rw [hvk]; simp
    · rw [hvk]; exact hnd
    · intro k hk
      rw [hvk]
      exact hmem k hk

/-- A generate capability that always fails with a quota message. -/
def quotaGen : Nat → Nat → GenOutcome := fun _ _ => .failure ("quota".toList)

def poolThree : ConverterState := ⟨["a".toList, "b".toList, "c".toList], 1⟩

/-- Witness for C3: three keys, cursor starting at 1, three quota failures
visit each credential exactly once. -/
theorem rotation_invariant_witness :
    (visitedKeys quotaGen poolThree).length = 3
    ∧ (visitedKeys quotaGen poolThree).Nodup
    ∧ ∀ k < 3, k ∈ visitedKeys quotaGen poolThree :=
  rotation_invariant.2.2 quotaGen poolThree
    (fun _ _ => ⟨"quota".toList, rfl, by decide⟩) (by decide)

/-- Decimal rendering of a page or table number, as the f-string does. -/
def natText (n : Nat) : List Char := Nat.toDigits 10 n

/-- One pdfplumber page: its `page.extract_text() or ""` value and its
`page.extract_tables()` value (tables are lists of rows of cell texts). -/
structure PdfPage where
  page_text : List Char
  tables : List (List (List (List Char)))
deriving DecidableEq

def joinCells (row : List (List Char)) : List Char :=
  List.intercalate (" ".toList) row

/-- Lines of the rendered grid: the header line when a columns argument is
given, then one line per data row. -/
def gridLines (cols : Option (List (List Char)))
    (rows : List (List (List Char))) : List (List Char) :=
  (match cols with | some h => [joinCells h] | none => []) ++ rows.map joinCells

/-- Modelled from the spec: pandas `DataFrame.to_string(index=False)` is an
external rendering capability not in src/; the spec describes its output as
a "textual grid representation (header row + data rows)", rendered here as
the header line (when a columns argument is given) followed by the data
rows. -/
def df_to_string (cols : Option (List (List Char)))
    (rows : List (List (List Char))) : List Char :=
  List.intercalate ("\n".toList) (gridLines cols rows)

/-- The columns argument of the PDF table rendering
(src/textparser.py line 35): `columns=table[0] if table[0] else None`. -/
def pdfTableColumns (table : List (List (List Char))) :
    Option (List (List Char)) :=
  match table with
  | [] => none
  | r :: _ => if r = [] then none else some r

/-- The columns argument of the DOCX table rendering
(src/textparser.py line 113): `columns=table_data[0] if table_data else
None` — conditioned on the whole `table_data` list, not on its first row. -/
def docxTableColumns (tdata : List (List (List Char))) :
    Option (List (List Char)) :=
  match tdata with
  | [] => none
  | r :: _ => some r

/-- One PDF table's contribution (lines 31-36): the "Table N:" heading, then
the grid when the table is non-empty (`if table:`). -/
def pdfTableBlock (idx : Nat) (table : List (List (List Char))) : List Char :=
  "\nTable ".toList ++ natText (idx + 1) ++ ":\n".toList
  ++ (if table = [] then []
      else df_to_string (pdfTableColumns table) (table.drop 1) ++ "\n".toList)

/-- One page's contribution to the layout phase (lines 21-36). -/
def pageBlock (idx : Nat) (p : PdfPage) : List Char :=
  "\n--- Page ".toList ++ natText (idx + 1) ++ " ---\n".toList ++ p.page_text
  ++ (if p.tables = [] then []
      else "\n[TABLES FOUND]\n".toList
        ++ (p.tables.enum.map (fun q => pdfTableBlock q.1 q.2)).flatten)

/-- The pdfplumber phase of extract_text_from_pdf_with_ocr (lines 19-36). -/
def layoutText (pages : List PdfPage) : List Char :=
  (pages.enum.map (fun q => pageBlock q.1 q.2)).flatten

/-- The whole-page OCR phase (lines 42-50): per-page pytesseract output over
the images rendered at 300 DPI. -/
def ocrText (images : List (List Char)) : List Char :=
  (images.enum.map
    (fun q =>
      "\n--- Page ".toList ++ natText (q.1 + 1) ++ " (OCR) ---\n".toList
        ++ q.2)).flatten

/-- extract_text_from_pdf_with_ocr (src/textparser.py lines 14-54).
`raster = none` models `convert_from_path` raising: the exception fires
before `text = ""` executes, so the accumulated layout text is returned
unchanged; `raster = some imgs` models successful rendering with `imgs` the
per-page OCR results. -/
def extract_text_from_pdf_with_ocr (pages : List PdfPage)
    (raster : Option (List (List Char))) : List Char :=
  let text := layoutText pages
  if (pyStrip text).length < 50 then
    match raster with
    | some imgs => ocrText imgs
    | none => text
  else text

/-- The `.pdf` branch of process_resumes (src/textparser.py lines 177-182):
`image_text` is the embedded-image OCR result, appended when non-empty
(`if image_text:`). -/
def pdfBranchText (pages : List PdfPage) (raster : Option (List (List Char)))
    (image_text : List Char) : List Char :=
  let text := extract_text_from_pdf_with_ocr pages raster
  if image_text = [] then text else text ++ "\n".toList ++ image_text

/-- One DOCX table's contribution (lines 105-114): `rows` is the already
cell-stripped `table_data`; the grid is rendered when `table_data` is
non-empty (`if table_data:`). -/
def docxTableBlock (idx : Nat) (rows : List (List (List Char))) : List Char :=
  "\nTable ".toList ++ natText (idx + 1) ++ ":\n".toList
  ++ (if rows = [] then []
      else df_to_string (docxTableColumns rows) (rows.drop 1) ++ "\n".toList)

/-- extract_text_from_docx (src/textparser.py lines 92-119): paragraph text
in document order, then every table as a grid, each cell's text stripped. -/
def extract_text_from_docx (paragraphs : List (List Char))
    (tables : List (List (List (List Char)))) : List Char :=
  (paragraphs.map (fun p => p ++ "\n".toList)).flatten
  ++ (if tables = [] then []
      else "\n[TABLES FOUND]\n".toList
        ++ ((tables.map (fun t => t.map (fun r => r.map pyStrip))).enum.map
              (fun q => docxTableBlock q.1 q.2)).flatten)

/-- C10: when the layout text is below the 50-character threshold but page
rasterization raises, extract_text_from_pdf_with_ocr returns the original
below-threshold layout/table text unchanged, not the empty string; the
wholesale discard happens only after rendering succeeds. -/
theorem pdf_render_failure_keeps_text (pages : List PdfPage)
    (h : (pyStrip (layoutText pages)).length < 50) :
    extract_text_from_pdf_with_ocr pages none = layoutText pages := by
  simp [extract_text_from_pdf_with_ocr, h]

def pagesSmall : List PdfPage := [⟨"abc".toList, []⟩]

/-- Witness for C10: a short single-page layout survives a failed raster
rendering unchanged. -/
theorem pdf_render_failure_keeps_text_witness :
    (pyStrip (layoutText pagesSmall)).length < 50
    ∧ extract_text_from_pdf_with_ocr pagesSmall none = layoutText pagesSmall :=
  ⟨by decide, pdf_render_failure_keeps_text pagesSmall (by decide)⟩

/-- A page whose text has 13 non-whitespace characters but 77 characters
after stripping only leading and trailing whitespace. -/
def pageSpread : PdfPage := ⟨'a' :: (List.replicate 60 ' ' ++ "b".toList), []⟩

def ocrPages : List (List Char) := ["RECOVERED BY OCR".toList]

/-- C4 counterexample: a layout text with fewer than 50 NON-WHITESPACE
characters whose Python `text.strip()` still has length at least 50: the
code keeps the layout text and never runs the OCR branch, contradicting the
claim's "fewer than 50 non-whitespace characters" trigger. -/
theorem pdf_threshold_counterexample :
    nonWhitespaceCount (layoutText [pageSpread]) < 50
    ∧ 50 ≤ (pyStrip (layoutText [pageSpread])).length
    ∧ extract_text_from_pdf_with_ocr [pageSpread] (some ocrPages)
        = layoutText [pageSpread]
    ∧ extract_text_from_pdf_with_ocr [pageSpread] (some ocrPages)
        ≠ ocrText ocrPages := by
  exact ⟨by decide, by decide, by decide, by decide⟩

/-- C4 (amended): the OCR fallback triggers when the layout-plus-table text
has fewer than 50 characters after stripping leading and trailing
whitespace (Python `len(text.strip()) < 50`, not a count of non-whitespace
characters); when it triggers and rendering succeeds the OCR output
entirely replaces the primary text with no concatenation; otherwise the
layout text is kept; and non-empty embedded-image OCR text is appended
after the primary result regardless of which branch produced it. -/
theorem pdf_ocr_fallback (pages : List PdfPage)
    (raster : Option (List (List Char))) (imgs : List (List Char))
    (image_text : List Char) :
    ((pyStrip (layoutText pages)).length < 50 →
       extract_text_from_pdf_with_ocr pages (some imgs) = ocrText imgs)
  ∧ (50 ≤ (pyStrip (layoutText pages)).length →
       extract_text_from_pdf_with_ocr pages raster = layoutText pages)
  ∧ (image_text ≠ [] →
       pdfBranchText pages raster image_text
         = extract_text_from_pdf_with_ocr pages raster
             ++ "\n".toList ++ image_text)
  ∧ (image_text = [] →
       pdfBranchText pages raster image_text
         = extract_text_from_pdf_with_ocr pages raster) := by
  refine ⟨?_, ?_, ?_, ?_⟩
  · intro h
    simp [extract_text_from_pdf_with_ocr, h]
  · intro h
    simp [extract_text_from_pdf_with_ocr, Nat.not_lt.mpr h]
  · intro h
    simp [pdfBranchText, h]
  · intro h
    simp [pdfBranchText, h]

/-- Witness for the amended C4: a below-threshold page is replaced wholesale
by the OCR output when rendering succeeds. -/
theorem pdf_ocr_fallback_witness :
    (pyStrip (layoutText pagesSmall)).length < 50
    ∧ extract_text_from_pdf_with_ocr pagesSmall (some ocrPages)
        = ocrText ocrPages :=
  ⟨by decide,
   (pdf_ocr_fallback pagesSmall (some ocrPages) ocrPages []).1 (by decide)⟩

/-- A table whose first row is empty and whose second row has one cell. -/
def oddTable : List (List (List Char)) := [[], ["x".toList]]

/-- C8 counterexample: on a table whose first row is empty the PDF strategy
passes `columns=None` (no header) while the DOCX strategy passes the empty
first row as the header, because its condition tests the whole `table_data`
list rather than the first row; the rendered blocks differ, so the DOCX
strategy does not apply the same grid convention. -/
theorem docx_header_convention_differs :
    pdfTableColumns oddTable = none
    ∧ docxTableColumns oddTable = some []
    ∧ docxTableBlock 0 oddTable ≠ pdfTableBlock 0 oddTable :=
  ⟨rfl, rfl, by decide⟩

/-- C8 (amended): in the PDF strategy the first row becomes the rendered
grid's header — the grid's first line — unless it is empty or absent, in
which case no header is synthesized; the DOCX strategy follows the same
convention on every table whose first row is non-empty and on empty tables,
but on a table whose first row is empty it still uses that row as the
header where the PDF strategy synthesizes none. -/
theorem table_header_convention (table : List (List (List Char)))
    (r : List (List Char)) (rest : List (List (List Char))) :
    (table = r :: rest → r ≠ [] →
       pdfTableColumns table = some r
     ∧ docxTableColumns table = some r
     ∧ (gridLines (pdfTableColumns table) (table.drop 1)).head?
         = some (joinCells r))
  ∧ (table = r :: rest → r = [] →
       pdfTableColumns table = none ∧ docxTableColumns table = some r)
  ∧ (table = [] →
       pdfTableColumns table = none ∧ docxTableColumns table = none) := by
  refine ⟨?_, ?_, ?_⟩
  · intro ht hr
    subst ht
    simp [pdfTableColumns, docxTableColumns, gridLines, hr]
  · intro ht hr
    subst ht
    subst hr
    simp [pdfTableColumns, docxTableColumns]
  · intro ht
    subst ht
    simp [pdfTableColumns, docxTableColumns]

/-- Witness for the amended C8: a two-row table with a non-empty first row
gets that row as header under both conventions, and it is the grid's first
line. -/
theorem table_header_convention_witness :
    pdfTableColumns [["h".toList], ["d".toList]] = some ["h".toList]
    ∧ docxTableColumns [["h".toList], ["d".toList]] = some ["h".toList]
    ∧ (gridLines (pdfTableColumns [["h".toList], ["d".toList]])
         ([["h".toList], ["d".toList]].drop 1)).head?
        = some (joinCells ["h".toList]) :=
  (table_header_convention [["h".toList], ["d".toList]] ["h".toList]
    [["d".toList]]).1 rfl (by decide)

end Aadhar
